import Mathlib

/-!
Verification development for the autofill-codes extension core:
the text code extractor (`src/utils/gmail.js`: `extractVerificationCode`,
`isLikelyCode`) and the page field classifier (`src/content/index.js`:
`findCodeField`, `findSplitCodeInputs`, `pageHasCodeContext`,
`isVisibleInput`, `hasSmallWidth`).

The JavaScript regular expressions are embedded via a small backtracking
matcher with JS `RegExp.exec` semantics: leftmost starting position wins,
alternatives are tried left to right, quantifiers are greedy with
backtracking, and the single capturing group of each pattern records the
text it consumed.  Strings are `List Char`; a "state" carries the
previously consumed character (for `^`, `$` in multiline mode and `\b`)
and the remaining input.
-/

namespace AutofillCodes

/-- Match state: previous character (if any), remaining input, capture of
group 1 (if assigned). -/
abbrev MState := Option Char × List Char × Option (List Char)

/-- Regular-expression syntax used by the patterns in the source.  All
quantifiers in the source regexes range over single-character classes, so
`starCls`/`repCls` quantify a character class directly.  `look` is a
zero-width assertion on the previous and next character (used for `^`/`$`
in multiline mode and `\b`). -/
inductive RE where
  | eps
  | cls (p : Char → Bool)
  | seq (a b : RE)
  | alt (a b : RE)
  | starCls (p : Char → Bool)
  | repCls (p : Char → Bool) (lo hi : Nat)
  | grp (a : RE)
  | look (f : Option Char → Option Char → Bool)

/-- Greedy Kleene star over a character class: all ways to consume a
prefix of characters satisfying `p`, longest first (JS greedy order). -/
def starM (p : Char → Bool) : Option Char → List Char → Option (List Char) →
    List MState
  | prev, [], cp => [(prev, [], cp)]
  | prev, c :: rest, cp =>
    if p c then starM p (some c) rest cp ++ [(prev, c :: rest, cp)]
    else [(prev, c :: rest, cp)]

/-- Consume exactly `n` characters satisfying `p` (the mandatory part of a
bounded repetition); fails if fewer are available. -/
def repManM (p : Char → Bool) : Nat → Option Char → List Char →
    Option (List Char) → List MState
  | 0, prev, s, cp => [(prev, s, cp)]
  | _ + 1, _, [], _ => []
  | n + 1, _, c :: rest, cp =>
    if p c then repManM p n (some c) rest cp else []

/-- Consume at most `n` characters satisfying `p`, greedily (longest
first), with all backtracking alternatives. -/
def repOptM (p : Char → Bool) : Nat → Option Char → List Char →
    Option (List Char) → List MState
  | 0, prev, s, cp => [(prev, s, cp)]
  | _ + 1, prev, [], cp => [(prev, [], cp)]
  | n + 1, prev, c :: rest, cp =>
    if p c then repOptM p n (some c) rest cp ++ [(prev, c :: rest, cp)]
    else [(prev, c :: rest, cp)]

/-- All matches of `re` at the current position, in JS backtracking
priority order (head of the list is the match `RegExp.exec` commits to). -/
def matchesR : RE → Option Char → List Char → Option (List Char) → List MState
  | .eps, prev, s, cp => [(prev, s, cp)]
  | .cls _, _, [], _ => []
  | .cls p, _, c :: rest, cp => if p c then [(some c, rest, cp)] else []
  | .look f, prev, s, cp => if f prev s.head? then [(prev, s, cp)] else []
  | .seq a b, prev, s, cp =>
    (matchesR a prev s cp).flatMap fun st => matchesR b st.1 st.2.1 st.2.2
  | .alt a b, prev, s, cp => matchesR a prev s cp ++ matchesR b prev s cp
  | .starCls p, prev, s, cp => starM p prev s cp
  | .repCls p lo hi, prev, s, cp =>
    (repManM p lo prev s cp).flatMap fun st => repOptM p (hi - lo) st.1 st.2.1 st.2.2
  | .grp a, prev, s, cp =>
    (matchesR a prev s cp).map fun st =>
      (st.1, st.2.1, some (s.take (s.length - st.2.1.length)))

/-- The match `exec` commits to at the current position, if any. -/
def tryRE (re : RE) (prev : Option Char) (s : List Char) : Option MState :=
  (matchesR re prev s none).head?

/-- JS `RegExp.exec` search: try each starting position from left to
right, returning the first committed match. -/
def searchRE (re : RE) : Option Char → List Char → Option MState
  | prev, s =>
    match tryRE re prev s with
    | some st => some st
    | none =>
      match s with
      | [] => none
      | c :: rest => searchRE re (some c) rest

/-- JS `RegExp.test`. -/
def testRE (re : RE) (s : List Char) : Bool := (searchRE re none s).isSome

/-- Repeated `exec` from `lastIndex` (the global-flag scan loop),
collecting the group-1 captures.  The fuel counts loop iterations; running
out of fuel models a non-terminating `while (exec)` loop (which in JS
would be a hang) and is the error branch of the extractor embedding. -/
def scanAllAux (re : RE) : Nat → Option Char → List Char →
    Except String (List (List Char))
  | 0, _, _ => .error "scan loop exceeded fuel"
  | fuel + 1, prev, s =>
    match searchRE re prev s with
    | none => .ok []
    | some (p2, rest, cp) =>
      match scanAllAux re fuel p2 rest with
      | .error e => .error e
      | .ok l => .ok ((cp.getD []) :: l)

/-- Scan the whole input with a global regex, collecting captures. -/
def scanAll (re : RE) (s : List Char) : Except String (List (List Char)) :=
  scanAllAux re (s.length + 1) none s

/-! ### Character classes and regex combinators -/

/-- JS `\s` (the whitespace characters relevant to this development). -/
def isWsJS (c : Char) : Bool :=
  c == ' ' || c == '\t' || c == '\n' || c == '\r' || c == '\x0b' ||
  c == '\x0c' || c == ' '

/-- JS `\w` (ASCII word character). -/
def isWordC (c : Char) : Bool := c.isAlpha || c.isDigit || c == '_'

def isWordOpt : Option Char → Bool
  | none => false
  | some c => isWordC c

/-- `[A-Z0-9]` under the `i` flag. -/
def isAlnumCI (c : Char) : Bool := c.isAlpha || c.isDigit

/-- `[A-Z0-9]` without the `i` flag (Tier C is case-sensitive). -/
def isUpperDigit (c : Char) : Bool := ('A' ≤ c && c ≤ 'Z') || c.isDigit

/-- A class that never matches (unit of alternation lists). -/
def reFail : RE := .cls fun _ => false

def seqL (l : List RE) : RE := l.foldr .seq .eps

def altL (l : List RE) : RE := l.foldr .alt reFail

/-- `x?` (greedy option). -/
def reOpt (a : RE) : RE := .alt a .eps

/-- Case-insensitive literal (a pattern under the `i` flag). -/
def litCI (s : String) : RE :=
  seqL (s.data.map fun a => .cls fun c => c.toLower == a.toLower)

/-- Case-sensitive literal. -/
def litCS (s : String) : RE :=
  seqL (s.data.map fun a => .cls fun c => c == a)

/-- `\s*`. -/
def wsStar : RE := .starCls isWsJS

/-- `\s+`. -/
def wsPlus : RE := .seq (.cls isWsJS) (.starCls isWsJS)

/-- `\b`. -/
def wordB : RE := .look fun prev next => isWordOpt prev != isWordOpt next

/-- `^` under the `m` flag. -/
def lineStartM : RE :=
  .look fun prev _ => prev == none || prev == some '\n' || prev == some '\r'

/-- `$` under the `m` flag. -/
def lineEndM : RE :=
  .look fun _ next => next == none || next == some '\n' || next == some '\r'

/-! ### The extractor's regexes (`src/utils/gmail.js`) -/

/-- The optional qualifier of explicit pattern 1:
`(?:verification|security|confirm(?:ation)?|login|sign[- ]?in|one[- ]?time|auth(?:entication)?|2fa|two[- ]?factor)`. -/
def qualifierRE : RE := altL [
  litCI "verification",
  litCI "security",
  .seq (litCI "confirm") (reOpt (litCI "ation")),
  litCI "login",
  seqL [litCI "sign", reOpt (.cls fun c => c == '-' || c == ' '), litCI "in"],
  seqL [litCI "one", reOpt (.cls fun c => c == '-' || c == ' '), litCI "time"],
  .seq (litCI "auth") (reOpt (litCI "entication")),
  litCI "2fa",
  seqL [litCI "two", reOpt (.cls fun c => c == '-' || c == ' '), litCI "factor"]]

/-- `(?:is|:|—|–|-|=)`. -/
def sepRE : RE := altL [litCI "is", litCS ":", litCS "—", litCS "–", litCS "-", litCS "="]

/-- Explicit pattern 1 (flags `gi`):
`(?:qualifier)?\s*(?:code|pin|otp)\s*(?:is|:|—|–|-|=)\s*[:\s]*([A-Z0-9]{4,8})`. -/
def explicitRE1 : RE := seqL [
  reOpt qualifierRE,
  wsStar,
  altL [litCI "code", litCI "pin", litCI "otp"],
  wsStar,
  sepRE,
  wsStar,
  .starCls (fun c => c == ':' || isWsJS c),
  .grp (.repCls isAlnumCI 4 8)]

/-- Explicit pattern 2 (flags `gi`):
`(?:enter|use|input|type|submit)\s+(?:the\s+)?(?:code\s+)?([A-Z0-9]{4,8})`. -/
def explicitRE2 : RE := seqL [
  altL [litCI "enter", litCI "use", litCI "input", litCI "type", litCI "submit"],
  wsPlus,
  reOpt (.seq (litCI "the") wsPlus),
  reOpt (.seq (litCI "code") wsPlus),
  .grp (.repCls isAlnumCI 4 8)]

/-- Explicit pattern 3 (flags `gi`): `\b([0-9]{4,8})\b\s*(?:is your|is the)`. -/
def explicitRE3 : RE := seqL [
  wordB,
  .grp (.repCls Char.isDigit 4 8),
  wordB,
  wsStar,
  altL [litCI "is your", litCI "is the"]]

/-- The standalone-number pattern (flags `gm`):
`(?:^|\s|>|\n)(\d{4,8})(?:\s|$|<|\n|\.)`. -/
def standaloneRE : RE := seqL [
  altL [lineStartM, .cls isWsJS, .cls (· == '>'), .cls (· == '\n')],
  .grp (.repCls Char.isDigit 4 8),
  altL [.cls isWsJS, lineEndM, .cls (· == '<'), .cls (· == '\n'), .cls (· == '.')]]

/-- Tier C's token pattern (flag `g`, case-sensitive): `\b([A-Z0-9]{6,8})\b`. -/
def alphanumRE : RE := seqL [wordB, .grp (.repCls isUpperDigit 6 8), wordB]

/-- `/code|verify|confirm|otp|pin/i` (the code-context keyword test). -/
def keywordRE : RE :=
  altL [litCI "code", litCI "verify", litCI "confirm", litCI "otp", litCI "pin"]

/-- `/\$|€|£|¥|USD|EUR/` (no `i` flag). -/
def currencyRE : RE :=
  altL [litCS "$", litCS "€", litCS "£", litCS "¥", litCS "USD", litCS "EUR"]

/-- `/\.\d{2}/`. -/
def decimalRE : RE := seqL [.cls (· == '.'), .cls Char.isDigit, .cls Char.isDigit]

/-! ### The extractor (`extractVerificationCode`, `isLikelyCode`) -/

/-- `codeContextPattern.test` of the source, applied to a combined text. -/
def hasCodeKeyword (s : List Char) : Bool := testRE keywordRE s

/-- JS `parseInt(str, 10)` restricted to the use in `isLikelyCode`:
the leading digit run as a number, `none` for `NaN`. -/
def parseIntJS (s : List Char) : Option Nat :=
  let digits := s.takeWhile Char.isDigit
  if digits.isEmpty then none
  else some (digits.foldl (fun n c => n * 10 + (c.toNat - 48)) 0)

/-- JS `String.prototype.indexOf` over the embedding (`none` for `-1`). -/
def indexOfList (hay needle : List Char) : Option Nat :=
  if needle.isPrefixOf hay then some 0
  else
    match hay with
    | [] => none
    | _ :: t => (indexOfList t needle).map (· + 1)

/-- The year test of `isLikelyCode`:
`numStr.length === 4 && num >= 1900 && num <= 2099` (a `NaN` comparison is
false). -/
def yearGuard (s : List Char) : Bool :=
  s.length == 4 &&
    (match parseIntJS s with
     | some n => 1900 ≤ n && n ≤ 2099
     | none => false)

/-- `isLikelyCode(numStr, context)` from `src/utils/gmail.js`: year-looking
4-digit values need a code keyword; otherwise the currency / decimal-suffix
windows are checked at `context.indexOf(numStr)` (the first occurrence of
the digits in the whole text). -/
def isLikelyCode (numStr context : List Char) : Bool :=
  if yearGuard numStr then hasCodeKeyword context
  else
    match indexOfList context numStr with
    | some idx =>
      if 0 < idx then
        !(testRE currencyRE ((context.drop (idx - 5)).take (idx - (idx - 5))) ||
          testRE decimalRE ((context.drop (idx + numStr.length)).take 5))
      else true
    | none => true

/-- `const combined = subject + " " + text`. -/
def combinedText (text subject : String) : List Char :=
  subject.data ++ ' ' :: text.data

/-- Tier A: try the three explicit patterns in order; return the first
truthy group-1 capture (`match?.[1]`). -/
def tierAScan (s : List Char) : Option (List Char) :=
  [explicitRE1, explicitRE2, explicitRE3].findSome? fun re =>
    match searchRE re none s with
    | some (_, _, some cap) => if cap.isEmpty then none else some cap
    | _ => none

/-- Tier B: all standalone-number captures that pass `isLikelyCode`. -/
def tierBCandidates (comb : List Char) : Except String (List (List Char)) :=
  match scanAll standaloneRE comb with
  | .error e => .error e
  | .ok raw => .ok (raw.filter fun c => isLikelyCode c comb)

/-- `candidates.find(len 6) || candidates.find(len 4) || candidates[0]`. -/
def pickPreferred (cands : List (List Char)) : Option (List Char) :=
  match cands.find? (fun c => c.length == 6) with
  | some c => some c
  | none =>
    match cands.find? (fun c => c.length == 4) with
    | some c => some c
    | none => cands.head?

/-- Tier C: gated on a code keyword; first 6-8 character `[A-Z0-9]` token
containing a letter (tested case-insensitively) and a digit. -/
def tierCScan (comb : List Char) : Except String (Option (List Char)) :=
  if hasCodeKeyword comb then
    match scanAll alphanumRE comb with
    | .error e => .error e
    | .ok toks => .ok (toks.find? fun c => c.any Char.isAlpha && c.any Char.isDigit)
  else .ok none

/-- `extractVerificationCode(text, subject)` from `src/utils/gmail.js`. -/
def extractVerificationCode (text : String) (subject : String := "") :
    Except String (Option String) :=
  let comb := combinedText text subject
  match tierAScan comb with
  | some cap => .ok (some ⟨cap⟩)
  | none =>
    match tierBCandidates comb with
    | .error e => .error e
    | .ok cands =>
      if cands.isEmpty then
        match tierCScan comb with
        | .error e => .error e
        | .ok r => .ok (r.map fun c => (⟨c⟩ : String))
      else .ok ((pickPreferred cands).map fun c => (⟨c⟩ : String))

/-! ### The field classifier (`src/content/index.js`)

A page snapshot is the document-order list of `input` elements plus the
page's visible text (`document.body.innerText`).  Element fields record
the declared attributes; the DOM-reflected IDL properties used by the
source are derived from them: `input.maxLength` reflects as `-1` when no
`maxlength` attribute is declared, `input.size` defaults to `20`, and
`input.type` defaults to `"text"`.  `parentId` stands for the identity of
`parentElement` (the grouping key of `findSplitCodeInputs`). -/

/-- An `input` element of the page snapshot. -/
structure InputEl where
  typeAttr : Option String := none
  nameAttr : Option String := none
  idAttr : Option String := none
  classAttr : Option String := none
  ariaLabel : Option String := none
  placeholder : Option String := none
  dataTestid : Option String := none
  autocompleteAttr : Option String := none
  maxLengthAttr : Option Nat := none
  sizeAttr : Option Nat := none
  value : String := ""
  disabled : Bool := false
  readOnly : Bool := false
  rectWidth : Nat := 0
  rectHeight : Nat := 0
  display : String := "block"
  visibility : String := "visible"
  opacityStyle : String := "1"
  parentId : Nat := 0
deriving DecidableEq

/-- A page snapshot: inputs in document order and the body's inner text. -/
structure Page where
  inputs : List InputEl
  bodyText : String

/-- The reflected `input.maxLength` IDL property (`-1` when undeclared). -/
def maxLengthProp (el : InputEl) : Int :=
  match el.maxLengthAttr with
  | some n => (n : Int)
  | none => -1

/-- The reflected `input.size` IDL property (default `20`). -/
def sizeProp (el : InputEl) : Nat := el.sizeAttr.getD 20

/-- The reflected `input.type` IDL property (default `"text"`). -/
def typeProp (el : InputEl) : String := el.typeAttr.getD "text"

/-- Whether `needle` occurs as a contiguous sublist of `hay`. -/
def containsSub (hay needle : List Char) : Bool :=
  if needle.isPrefixOf hay then true
  else
    match hay with
    | [] => false
    | _ :: t => containsSub t needle

/-- Case-insensitive substring attribute selector `[attr*="needle" i]`
(false when the attribute is absent). -/
def ciContains (attr : Option String) (needle : String) : Bool :=
  match attr with
  | some v => containsSub (v.data.map Char.toLower) (needle.data.map Char.toLower)
  | none => false

/-- `isVisibleInput(el)` from `src/content/index.js`. -/
def isVisibleInput (el : InputEl) : Bool :=
  if typeProp el == "hidden" || el.disabled || el.readOnly then false
  else if el.rectWidth == 0 || el.rectHeight == 0 then false
  else el.display != "none" && el.visibility != "hidden" && el.opacityStyle != "0"

/-- `hasSmallWidth(el)`: rendered width below 300 pixels. -/
def hasSmallWidth (el : InputEl) : Bool := decide (el.rectWidth < 300)

/-- The `CODE_FIELD_SELECTORS` list as ordered element predicates; each
entry corresponds to one selector, in source order. -/
def tier1Preds : List (InputEl → Bool) := [
  fun el => el.autocompleteAttr == some "one-time-code",
  fun el => ciContains el.nameAttr "otp",
  fun el => ciContains el.nameAttr "code",
  fun el => ciContains el.nameAttr "verify",
  fun el => ciContains el.nameAttr "token",
  fun el => ciContains el.nameAttr "2fa",
  fun el => ciContains el.nameAttr "mfa",
  fun el => ciContains el.nameAttr "pin",
  fun el => ciContains el.idAttr "otp",
  fun el => ciContains el.idAttr "code",
  fun el => ciContains el.idAttr "verify",
  fun el => ciContains el.idAttr "2fa",
  fun el => ciContains el.idAttr "mfa",
  fun el => ciContains el.classAttr "otp",
  fun el => ciContains el.classAttr "code",
  fun el => ciContains el.classAttr "verify",
  fun el => ciContains el.dataTestid "code",
  fun el => ciContains el.dataTestid "otp",
  fun el => ciContains el.ariaLabel "code",
  fun el => ciContains el.ariaLabel "otp",
  fun el => ciContains el.ariaLabel "verification",
  fun el => ciContains el.placeholder "code",
  fun el => ciContains el.placeholder "otp",
  fun el => ciContains el.placeholder "verification"]

/-- Strategy 1 of `findCodeField`: for each selector in order,
`document.querySelector` returns the first document-order element matching
it; that element is returned only if it passes the visibility check,
otherwise the scan moves to the next selector. -/
def tier1Scan (page : Page) : Option InputEl :=
  tier1Preds.findSome? fun pred =>
    match page.inputs.find? pred with
    | some el => if isVisibleInput el then some el else none
    | none => none

/-- The query `input[type="text"], input[type="number"], input[type="tel"],
input:not([type])` used by strategies 2 and 3. -/
def shortFormQuery (el : InputEl) : Bool :=
  el.typeAttr == some "text" || el.typeAttr == some "number" ||
  el.typeAttr == some "tel" || el.typeAttr == none

/-- `input.maxLength === 1 || input.size === 1`. -/
def singleCharInput (el : InputEl) : Bool :=
  maxLengthProp el == 1 || sizeProp el == 1

/-- The visible single-character inputs considered by
`findSplitCodeInputs`, in document order. -/
def splitQualifying (page : Page) : List InputEl :=
  ((page.inputs.filter shortFormQuery).filter isVisibleInput).filter singleCharInput

/-- First occurrence of each key, in order (JS `Map` key iteration
order). -/
def firstKeys : List Nat → List Nat
  | [] => []
  | k :: rest => k :: (firstKeys rest).filter (fun x => !(x == k))

/-- The JS `Map`-based grouping of `findSplitCodeInputs`: keys in order of
first appearance, each key mapped to its members in encounter order. -/
def groupByParent (es : List InputEl) : List (Nat × List InputEl) :=
  (firstKeys (es.map (·.parentId))).map fun k =>
    (k, es.filter fun e => e.parentId == k)

/-- `findSplitCodeInputs()`: the first parent group with 4-8 qualifying
members. -/
def findSplitCodeInputs (page : Page) : Option (List InputEl) :=
  ((groupByParent (splitQualifying page)).find? fun g =>
    decide (4 ≤ g.2.length) && decide (g.2.length ≤ 8)).map (·.2)

/-- The `CONTEXT_PATTERNS` list. -/
def contextREs : List RE := [
  seqL [litCI "enter", wsPlus, reOpt (.seq (litCI "the") wsPlus),
    altL [litCI "verification", litCI "security", litCI "confirmation",
      litCI "login",
      seqL [litCI "sign", reOpt (.cls fun c => c == '-' || c == ' '), litCI "in"]],
    wsStar, litCI "code"],
  seqL [litCI "we", wsPlus, altL [litCI "sent", litCI "emailed"], wsPlus,
    reOpt (altL [.seq (litCI "a") wsPlus,
      seqL [litCI "you", wsPlus, litCI "a", wsPlus]]),
    litCI "code"],
  seqL [litCI "check", wsPlus, litCI "your", wsPlus,
    altL [litCI "email", litCI "inbox"]],
  seqL [litCI "one", reOpt (.cls fun c => c == '-' || c == ' '), litCI "time",
    wsPlus, altL [litCI "password", litCI "code", litCI "pin"]],
  seqL [litCI "enter", wsPlus, reOpt (.seq (litCI "the") wsPlus),
    reOpt (seqL [.cls Char.isDigit, reOpt (.cls fun c => c == '-' || c == ' '),
      litCI "digit", wsPlus]),
    litCI "code"],
  seqL [litCI "verification", wsPlus, litCI "code"],
  seqL [litCI "confirm", reOpt (litCI "ation"), wsPlus, litCI "code"],
  seqL [litCI "two", reOpt (.cls fun c => c == '-' || c == ' '), litCI "factor"],
  seqL [litCI "2fa", wsPlus, litCI "code"],
  seqL [litCI "authentication", wsPlus, litCI "code"]]

/-- `pageHasCodeContext()`: some context pattern matches the body text. -/
def pageHasCodeContext (page : Page) : Bool :=
  contextREs.any fun re => testRE re page.bodyText.data

/-- Strategy 3 of `findCodeField`: the first visible, empty, short-form
input with reflected `maxLength <= 8`, `size <= 8`, or small rendered
width, gated on the page context test. -/
def tier3Scan (page : Page) : Option InputEl :=
  if pageHasCodeContext page then
    (page.inputs.filter shortFormQuery).find? fun el =>
      isVisibleInput el && el.value == "" &&
        (decide (maxLengthProp el ≤ 8) || decide (sizeProp el ≤ 8) ||
          hasSmallWidth el)
  else none

/-- The module-level mutable state of the content script that
`findCodeField` can write (`splitInputs`). -/
structure CState where
  splitInputs : Option (List InputEl)
deriving DecidableEq

/-- `findCodeField()` with the module state made explicit: strategy 2
assigns the module-level `splitInputs` variable and returns the group's
first element. -/
def findCodeFieldS (page : Page) (st : CState) : Option InputEl × CState :=
  match tier1Scan page with
  | some el => (some el, st)
  | none =>
    match findSplitCodeInputs page with
    | some splits => (splits.head?, { splitInputs := some splits })
    | none => (tier3Scan page, st)

/-- A detected fillable target (the spec's `CandidateField`). -/
inductive CandidateField where
  | single (el : InputEl)
  | segmented (els : List InputEl)
deriving DecidableEq

/-- The classifier contract view of `findCodeField`: strategy 2 yields the
whole segmented group (the source records it in `splitInputs` and returns
its first element). -/
def classify (page : Page) : Option CandidateField :=
  match tier1Scan page with
  | some el => some (.single el)
  | none =>
    match findSplitCodeInputs page with
    | some splits => some (.segmented splits)
    | none => (tier3Scan page).map .single

end AutofillCodes


namespace AutofillCodes

/-! ### Progress of the scan loops

`while ((m = pattern.exec(text)) !== null)` advances `lastIndex` by the
length of each match; it terminates because every match of the two global
patterns consumes at least one character.  `minLen` bounds the number of
characters any match of a regex must consume, which makes the fuel
`length + 1` of `scanAll` sufficient and the error branch of
`extractVerificationCode` unreachable. -/

/-- Lower bound on the characters any match of `re` consumes. -/
def minLen : RE → Nat
  | .eps => 0
  | .cls _ => 1
  | .seq a b => minLen a + minLen b
  | .alt a b => min (minLen a) (minLen b)
  | .starCls _ => 0
  | .repCls _ lo _ => lo
  | .grp a => minLen a
  | .look _ => 0

theorem starM_length_le (p : Char → Bool) :
    ∀ (s : List Char) (prev : Option Char) (cp : Option (List Char)),
      ∀ st ∈ starM p prev s cp, st.2.1.length ≤ s.length := by
  intro s
  induction s with
  | nil =>
    intro prev cp st hst
    simp only [starM, List.mem_singleton] at hst
    simp [hst]
  | cons c rest ih =>
    intro prev cp st hst
    by_cases hp : p c
    · simp only [starM, hp, if_true, List.mem_append, List.mem_singleton] at hst
      rcases hst with hst | hst
      · exact le_trans (ih _ _ _ hst) (Nat.le_succ _)
      · simp [hst]
    · simp only [starM, if_neg hp, List.mem_singleton] at hst
      simp [hst]

theorem repManM_length_le (p : Char → Bool) :
    ∀ (n : Nat) (s : List Char) (prev : Option Char) (cp : Option (List Char)),
      ∀ st ∈ repManM p n prev s cp, st.2.1.length + n ≤ s.length := by
  intro n
  induction n with
  | zero =>
    intro s prev cp st hst
    simp only [repManM, List.mem_singleton] at hst
    simp [hst]
  | succ m ih =>
    intro s prev cp st hst
    cases s with
    | nil => simp [repManM] at hst
    | cons c rest =>
      by_cases hp : p c
      · simp only [repManM, hp, if_true] at hst
        have := ih rest (some c) cp st hst
        simp only [List.length_cons]
        omega
      · simp [repManM, hp] at hst

theorem repOptM_length_le (p : Char → Bool) :
    ∀ (n : Nat) (s : List Char) (prev : Option Char) (cp : Option (List Char)),
      ∀ st ∈ repOptM p n prev s cp, st.2.1.length ≤ s.length := by
  intro n
  induction n with
  | zero =>
    intro s prev cp st hst
    simp only [repOptM, List.mem_singleton] at hst
    simp [hst]
  | succ m ih =>
    intro s prev cp st hst
    cases s with
    | nil =>
      simp only [repOptM, List.mem_singleton] at hst
      simp [hst]
    | cons c rest =>
      by_cases hp : p c
      · simp only [repOptM, hp, if_true, List.mem_append, List.mem_singleton] at hst
        rcases hst with hst | hst
        · exact le_trans (ih _ _ _ _ hst) (Nat.le_succ _)
        · simp [hst]
      · simp only [repOptM, if_neg hp, List.mem_singleton] at hst
        simp [hst]

theorem matchesR_minLen :
    ∀ (re : RE) (prev : Option Char) (s : List Char) (cp : Option (List Char)),
      ∀ st ∈ matchesR re prev s cp, st.2.1.length + minLen re ≤ s.length := by
  intro re
  induction re with
  | eps =>
    intro prev s cp st hst
    simp only [matchesR, List.mem_singleton] at hst
    simp [hst, minLen]
  | cls p =>
    intro prev s cp st hst
    cases s with
    | nil => simp [matchesR] at hst
    | cons c rest =>
      by_cases hp : p c
      · simp only [matchesR, hp, if_true, List.mem_singleton] at hst
        simp [hst, minLen]
      · simp [matchesR, hp] at hst
  | seq a b iha ihb =>
    intro prev s cp st hst
    simp only [matchesR, List.mem_flatMap] at hst
    obtain ⟨st1, h1, h2⟩ := hst
    have ha := iha prev s cp st1 h1
    have hb := ihb st1.1 st1.2.1 st1.2.2 st h2
    simp only [minLen]
    omega
  | alt a b iha ihb =>
    intro prev s cp st hst
    simp only [matchesR, List.mem_append] at hst
    have hmin1 := Nat.min_le_left (minLen a) (minLen b)
    have hmin2 := Nat.min_le_right (minLen a) (minLen b)
    rcases hst with hst | hst
    · have := iha prev s cp st hst
      simp only [minLen]
      omega
    · have := ihb prev s cp st hst
      simp only [minLen]
      omega
  | starCls p =>
    intro prev s cp st hst
    have := starM_length_le p s prev cp st hst
    simp only [minLen]
    omega
  | repCls p lo hi =>
    intro prev s cp st hst
    simp only [matchesR, List.mem_flatMap] at hst
    obtain ⟨st1, h1, h2⟩ := hst
    have ha := repManM_length_le p lo s prev cp st1 h1
    have hb := repOptM_length_le p (hi - lo) st1.2.1 st1.1 st1.2.2 st h2
    simp only [minLen]
    omega
  | grp a iha =>
    intro prev s cp st hst
    simp only [matchesR, List.mem_map] at hst
    obtain ⟨st1, h1, h2⟩ := hst
    have hlen := iha prev s cp st1 h1
    simp only [minLen]
    have hrest : st.2.1 = st1.2.1 := by rw [← h2]
    rw [hrest]
    omega
  | look f =>
    intro prev s cp st hst
    by_cases hf : f prev s.head?
    · simp only [matchesR, hf, if_true, List.mem_singleton] at hst
      simp [hst, minLen]
    · simp [matchesR, hf] at hst

theorem head?_mem {α : Type} {l : List α} {a : α} (h : l.head? = some a) : a ∈ l := by
  cases l with
  | nil => simp at h
  | cons x xs =>
    simp only [List.head?, Option.some.injEq] at h
    simp [h]

theorem searchRE_minLen (re : RE) :
    ∀ (s : List Char) (prev : Option Char) (st : MState),
      searchRE re prev s = some st → st.2.1.length + minLen re ≤ s.length := by
  intro s
  induction s with
  | nil =>
    intro prev st h
    rw [searchRE] at h
    cases htry : tryRE re prev [] with
    | none => rw [htry] at h; exact absurd h (by simp)
    | some st1 =>
      rw [htry] at h
      injection h with h2
      subst h2
      exact matchesR_minLen re prev [] none st1 (head?_mem htry)
  | cons c rest ih =>
    intro prev st h
    rw [searchRE] at h
    cases htry : tryRE re prev (c :: rest) with
    | none =>
      rw [htry] at h
      have := ih (some c) st h
      simp only [List.length_cons]
      omega
    | some st1 =>
      rw [htry] at h
      injection h with h2
      subst h2
      exact matchesR_minLen re prev (c :: rest) none st1 (head?_mem htry)

theorem scanAllAux_isOk (re : RE) (hmin : 1 ≤ minLen re) :
    ∀ (fuel : Nat) (prev : Option Char) (s : List Char), s.length < fuel →
      ∃ l, scanAllAux re fuel prev s = .ok l := by
  intro fuel
  induction fuel with
  | zero => intro prev s hs; omega
  | succ n ih =>
    intro prev s hs
    cases hsr : searchRE re prev s with
    | none => exact ⟨[], by simp only [scanAllAux, hsr]⟩
    | some st =>
      obtain ⟨p2, rest, cp⟩ := st
      have hlen := searchRE_minLen re s prev (p2, rest, cp) hsr
      have hrest : rest.length < n := by simp at hlen; omega
      obtain ⟨l, hl⟩ := ih p2 rest hrest
      exact ⟨(cp.getD []) :: l, by simp only [scanAllAux, hsr, hl]⟩

theorem scanAll_isOk (re : RE) (hmin : 1 ≤ minLen re) (s : List Char) :
    ∃ l, scanAll re s = .ok l :=
  scanAllAux_isOk re hmin (s.length + 1) none s (Nat.lt_succ_self _)

/-- Claim C10 (confirmed): for every pair of strings the extractor
terminates normally with a code or `none`; the error branch of the
embedding (a scan loop that fails to advance) is unreachable, because
every match of `standaloneRE` consumes at least 4 characters and every
match of `alphanumRE` at least 6. -/
theorem C10_extract_total (t s : String) :
    ∃ r, extractVerificationCode t s = .ok r := by
  cases hA : tierAScan (combinedText t s) with
  | some cap =>
    exact ⟨some ⟨cap⟩, by simp only [extractVerificationCode, hA]⟩
  | none =>
    obtain ⟨raw, hraw⟩ := scanAll_isOk standaloneRE (by decide) (combinedText t s)
    have hB : tierBCandidates (combinedText t s) =
        .ok (raw.filter fun c => isLikelyCode c (combinedText t s)) := by
      simp only [tierBCandidates, hraw]
    by_cases hemp : (raw.filter fun c => isLikelyCode c (combinedText t s)).isEmpty
    · by_cases hk : hasCodeKeyword (combinedText t s)
      · obtain ⟨toks, htoks⟩ := scanAll_isOk alphanumRE (by decide) (combinedText t s)
        refine ⟨(toks.find? fun c =>
            c.any Char.isAlpha && c.any Char.isDigit).map (fun c => (⟨c⟩ : String)), ?_⟩
        simp [extractVerificationCode, hA, hB, hemp, tierCScan, hk, htoks]
      · refine ⟨none, ?_⟩
        simp [extractVerificationCode, hA, hB, hemp, tierCScan, hk]
    · refine ⟨(pickPreferred (raw.filter fun c =>
        isLikelyCode c (combinedText t s))).map (fun c => (⟨c⟩ : String)), ?_⟩
      simp [extractVerificationCode, hA, hB, hemp]

end AutofillCodes

namespace AutofillCodes

/-! ### Claims about the extractor tiers -/

/-- Claim C2 (confirmed): whenever Tier A (the ordered explicit-callout
templates, first truthy capture) succeeds on the combined text, the
extractor returns that capture and Tiers B and C are never consulted. -/
theorem C2_tierA_short_circuit (t s : String) (v : List Char)
    (hA : tierAScan (combinedText t s) = some v) :
    extractVerificationCode t s = .ok (some ⟨v⟩) := by
  simp only [extractVerificationCode, hA]

/-- Witness for C2: the spec's tier-precedence example. -/
theorem C2_witness :
    extractVerificationCode
        "Your verification code is: 482913. Meeting scheduled for 2024." "" =
      .ok (some "482913") :=
  C2_tierA_short_circuit _ _ ("482913".data) rfl

/-- Counterexample for claim C1: on `"12345  12345678"` Tier A finds
nothing and both the 5-digit and the 8-digit runs survive the noise
filter; no 6- or 4-digit survivor exists, yet the extractor returns the
5-digit first survivor `"12345"`, not the 8-digit survivor the claim
prescribes.  The code has no 8-digit preference step
(`find(6) || find(4) || candidates[0]`). -/
theorem C1_counterexample :
    tierAScan (combinedText "12345  12345678" "") = none ∧
    tierBCandidates (combinedText "12345  12345678" "") =
      .ok ["12345".data, "12345678".data] ∧
    (∀ c ∈ ["12345".data, "12345678".data], c.length ≠ 6 ∧ c.length ≠ 4) ∧
    ("12345678".data).length = 8 ∧
    extractVerificationCode "12345  12345678" "" = .ok (some "12345") ∧
    ("12345" : String) ≠ "12345678" :=
  ⟨rfl, rfl, by decide, rfl, rfl, by decide⟩

/-- Claim C1 (corrected): when Tier A finds nothing and at least one
standalone digit run survives the noise filter, the extractor returns the
first 6-digit survivor, else the first 4-digit survivor, else the first
survivor in scan order — there is no 8-digit preference step. -/
theorem C1_length_preference (t s : String) (v : List Char) (vs : List (List Char))
    (hA : tierAScan (combinedText t s) = none)
    (hB : tierBCandidates (combinedText t s) = .ok (v :: vs)) :
    extractVerificationCode t s =
      .ok (some ⟨(((v :: vs).find? fun c => c.length == 6).getD
        (((v :: vs).find? fun c => c.length == 4).getD v))⟩) := by
  have hpick : pickPreferred (v :: vs) =
      some ((((v :: vs).find? fun c => c.length == 6).getD
        (((v :: vs).find? fun c => c.length == 4).getD v))) := by
    unfold pickPreferred
    cases h6 : (v :: vs).find? fun c => c.length == 6 with
    | some c => simp [h6]
    | none =>
      cases h4 : (v :: vs).find? fun c => c.length == 4 with
      | some c => simp [h4]
      | none => simp [h4]
  simp [extractVerificationCode, hA, hB, hpick]

/-- Witness for C1: the counterexample text, where the selection falls
through to the first survivor. -/
theorem C1_witness :
    extractVerificationCode "12345  12345678" "" =
      .ok (some ⟨((["12345".data, "12345678".data].find? fun c => c.length == 6).getD
        ((["12345".data, "12345678".data].find? fun c => c.length == 4).getD
          "12345".data))⟩) :=
  C1_length_preference "12345  12345678" "" "12345".data ["12345678".data] rfl rfl

/-- Claim C3 (confirmed): a standalone 4-digit candidate whose value lies
in 1900-2099 passes the noise filter exactly when the combined text
contains a code keyword; on `"Reminder: event in 2025"` the extractor
returns nothing and on `"Your code 2024 confirms the order"` it returns
`"2024"`. -/
theorem C3_year_filter :
    (∀ (s ctx : List Char) (n : Nat), parseIntJS s = some n → s.length = 4 →
      1900 ≤ n → n ≤ 2099 → isLikelyCode s ctx = hasCodeKeyword ctx) ∧
    extractVerificationCode "Reminder: event in 2025" "" = .ok none ∧
    extractVerificationCode "Your code 2024 confirms the order" "" =
      .ok (some "2024") := by
  refine ⟨?_, rfl, rfl⟩
  intro s ctx n hp hl h1 h2
  have hy : yearGuard s = true := by
    simp only [yearGuard, hp, hl, beq_self_eq_true, Bool.true_and, Bool.and_eq_true,
      decide_eq_true_eq]
    exact ⟨h1, h2⟩
  simp [isLikelyCode, hy]

/-- Witness for C3: the year-looking candidate `"2025"` is accepted or
rejected exactly by the keyword test. -/
theorem C3_witness :
    isLikelyCode "2025".data (combinedText "Reminder: event in 2025" "") =
      hasCodeKeyword (combinedText "Reminder: event in 2025" "") :=
  C3_year_filter.1 "2025".data _ 2025 rfl rfl (by decide) (by decide)

/-- The currency/decimal window test of the spec's claim C4, evaluated at
a GIVEN occurrence offset `idx` (5 characters before, 5 after).  This
definition follows the claim's words; the source instead evaluates the
windows at `context.indexOf(numStr)`, the first occurrence. -/
def currencyFlankedAt (ctx : List Char) (idx len : Nat) : Bool :=
  testRE currencyRE ((ctx.drop (idx - 5)).take (idx - (idx - 5))) ||
  testRE decimalRE ((ctx.drop (idx + len)).take 5)

/-- Counterexample for claim C4: in `"4599 ok USD 4599"` the occurrence
of `"4599"` at offset 13 is preceded by `"USD "` within 5 characters, so
the claim says that candidate occurrence is rejected; but the filter
checks the windows only at the first occurrence (offset 1, clean), so
both occurrences survive and the extractor returns `"4599"`. -/
theorem C4_counterexample :
    ((combinedText "4599 ok USD 4599" "").drop 13).take 4 = "4599".data ∧
    currencyFlankedAt (combinedText "4599 ok USD 4599" "") 13 4 = true ∧
    isLikelyCode "4599".data (combinedText "4599 ok USD 4599" "") = true ∧
    tierBCandidates (combinedText "4599 ok USD 4599" "") =
      .ok ["4599".data, "4599".data] ∧
    extractVerificationCode "4599 ok USD 4599" "" = .ok (some "4599") :=
  ⟨rfl, rfl, rfl, rfl, rfl⟩

/-- Claim C4 (corrected): for a candidate that is not year-filtered, the
noise filter evaluates the currency / two-decimal windows at the FIRST
occurrence of the candidate's digits in the combined text
(`context.indexOf`), and every occurrence of the same digit string shares
that verdict; it does not check each occurrence at its own offset. -/
theorem C4_first_occurrence (s ctx : List Char) (idx : Nat)
    (hy : yearGuard s = false) (hidx : indexOfList ctx s = some idx) :
    isLikelyCode s ctx =
      if 0 < idx then !(currencyFlankedAt ctx idx s.length) else true := by
  simp [isLikelyCode, hy, hidx, currencyFlankedAt]

/-- Witness for C4: the filter's verdict on `"4599"` is the window test
at the first occurrence (offset 1). -/
theorem C4_witness :
    isLikelyCode "4599".data (combinedText "4599 ok USD 4599" "") =
      if 0 < 1 then
        !(currencyFlankedAt (combinedText "4599 ok USD 4599" "") 1
          ("4599".data).length)
      else true :=
  C4_first_occurrence "4599".data _ 1 (by decide) rfl

/-- Tier C as the spec's claim C5 words it ("6-8 character alphanumeric
token"), i.e. with lowercase letters admitted (`[A-Za-z0-9]{6,8}`).
Modelled from the spec for comparison with the source's case-sensitive
scan. -/
def alphanumSpecRE : RE := seqL [wordB, .grp (.repCls isAlnumCI 6 8), wordB]

/-- The spec-worded Tier C scan (case-insensitive token class). -/
def tierCSpecScan (comb : List Char) : Except String (Option (List Char)) :=
  if hasCodeKeyword comb then
    match scanAll alphanumSpecRE comb with
    | .error e => .error e
    | .ok toks => .ok (toks.find? fun c => c.any Char.isAlpha && c.any Char.isDigit)
  else .ok none

/-- Counterexample for claim C5: on `"pin sent for a1b2c3x today"` Tiers A
and B find nothing and the keyword gate passes; the claim then prescribes
the first 6-8 character alphanumeric mixed token, `"a1b2c3x"`, but the
source scans with the case-sensitive class `[A-Z0-9]` (no `i` flag), so
the lowercase token is invisible and the extractor returns nothing. -/
theorem C5_counterexample :
    tierAScan (combinedText "pin sent for a1b2c3x today" "") = none ∧
    tierBCandidates (combinedText "pin sent for a1b2c3x today" "") = .ok [] ∧
    hasCodeKeyword (combinedText "pin sent for a1b2c3x today" "") = true ∧
    tierCSpecScan (combinedText "pin sent for a1b2c3x today" "") =
      .ok (some "a1b2c3x".data) ∧
    extractVerificationCode "pin sent for a1b2c3x today" "" = .ok none :=
  ⟨rfl, rfl, rfl, rfl, rfl⟩

/-- Claim C5 (corrected): Tier C runs only when Tiers A and B produced
nothing and is gated on a code keyword; without one the extractor returns
nothing without scanning, and with one it returns the first
word-boundary-delimited 6-8 character token over the case-sensitive class
`A-Z`/`0-9` that contains a letter and a digit (lowercase letters never
participate), or nothing when no such token exists. -/
theorem C5_alphanum_gate (t s : String) (toks : List (List Char))
    (hA : tierAScan (combinedText t s) = none)
    (hB : tierBCandidates (combinedText t s) = .ok [])
    (hC : scanAll alphanumRE (combinedText t s) = .ok toks) :
    extractVerificationCode t s =
      .ok (if hasCodeKeyword (combinedText t s) then
        (toks.find? fun c => c.any Char.isAlpha && c.any Char.isDigit).map
          (fun c => (⟨c⟩ : String))
      else none) := by
  by_cases hk : hasCodeKeyword (combinedText t s) <;>
    simp [extractVerificationCode, hA, hB, tierCScan, hk, hC]

/-- Witness for C5: an uppercase mixed token behind a keyword gate is
found by Tier C. -/
theorem C5_witness :
    extractVerificationCode "pin sent for Z9Y8X7 now" "" = .ok (some "Z9Y8X7") :=
  C5_alphanum_gate "pin sent for Z9Y8X7 now" "" ["Z9Y8X7".data] rfl rfl rfl

end AutofillCodes

namespace AutofillCodes

/-! ### Claims about the field classifier -/

theorem findSome?_exists {α β : Type} {g : α → Option β} :
    ∀ {l : List α} {b : β}, l.findSome? g = some b → ∃ a ∈ l, g a = some b := by
  intro l
  induction l with
  | nil => intro b h; simp [List.findSome?] at h
  | cons x xs ih =>
    intro b h
    rw [List.findSome?] at h
    cases hg : g x with
    | some y =>
      rw [hg] at h
      injection h with h2
      exact ⟨x, List.mem_cons_self x xs, by rw [hg, h2]⟩
    | none =>
      rw [hg] at h
      obtain ⟨a, ha, hga⟩ := ih h
      exact ⟨a, List.mem_cons_of_mem x ha, hga⟩

/-- A first element in document order with `name="code"`, invisible
because it has no rendered area. -/
def elHiddenCode : InputEl := { nameAttr := some "code", typeAttr := some "text" }

/-- A later element with the same `name="code"` attribute, visible. -/
def elVisibleCode : InputEl :=
  { nameAttr := some "code", typeAttr := some "text",
    rectWidth := 120, rectHeight := 20 }

/-- A page whose first `name*="code"` match is invisible and whose second
one is visible, with no other signals. -/
def pageSameSelector : Page := ⟨[elHiddenCode, elVisibleCode], ""⟩

/-- Counterexample for claim C6: `elVisibleCode` matches a Tier-1
predicate and is visible, yet classification returns nothing, because per
selector only the first document-order match (`querySelector`) is
inspected and here that match is invisible; a later visible element
matching the same predicate is NOT returned. -/
theorem C6_counterexample :
    ciContains elVisibleCode.nameAttr "code" = true ∧
    isVisibleInput elVisibleCode = true ∧
    isVisibleInput elHiddenCode = false ∧
    classify pageSameSelector = none :=
  ⟨rfl, rfl, rfl, rfl⟩

/-- Claim C6 (corrected): Tier 1 takes the predicates in priority order,
but per predicate only the first document-order matching element is
considered (`querySelector`); the returned element is always visible and
is the first match of some predicate.  If that first match is invisible
the predicate yields nothing — a later visible element matching the same
predicate is not found through it — and with no visible first-match
across all predicates, classification falls through to Tiers 2 and 3. -/
theorem C6_first_match_per_selector :
    (∀ (page : Page) (el : InputEl), tier1Scan page = some el →
      isVisibleInput el = true ∧ ∃ p ∈ tier1Preds, page.inputs.find? p = some el) ∧
    (∀ page : Page, tier1Scan page = none →
      classify page =
        match findSplitCodeInputs page with
        | some splits => some (.segmented splits)
        | none => (tier3Scan page).map .single) := by
  constructor
  · intro page el h
    obtain ⟨p, hp, hres⟩ := findSome?_exists h
    cases hfind : page.inputs.find? p with
    | none => rw [hfind] at hres; simp at hres
    | some e =>
      rw [hfind] at hres
      by_cases hv : isVisibleInput e
      · simp only [hv, if_true] at hres
        injection hres with h2
        subst h2
        exact ⟨hv, p, hp, hfind⟩
      · simp [hv] at hres
  · intro page h
    simp only [classify, h]

/-- A single visible input carrying `name="code"`. -/
def pageOneCode : Page := ⟨[elVisibleCode], ""⟩

/-- Witness for C6: the returned Tier-1 element is visible and is the
first match of one of the predicates. -/
theorem C6_witness :
    isVisibleInput elVisibleCode = true ∧
    ∃ p ∈ tier1Preds, pageOneCode.inputs.find? p = some elVisibleCode :=
  C6_first_match_per_selector.1 pageOneCode elVisibleCode rfl

theorem groupByParent_eq_filter {es : List InputEl} {kl : Nat × List InputEl}
    (h : kl ∈ groupByParent es) :
    kl.2 = es.filter fun e => e.parentId == kl.1 := by
  simp only [groupByParent, List.mem_map] at h
  obtain ⟨k, _, hk⟩ := h
  rw [← hk]

/-- Claim C7 (confirmed): every segmented CandidateField produced by the
classifier has between 4 and 8 members, all visible short-form
single-character inputs sharing one immediate parent, listed in document
scan order (a sublist of the page's inputs); it is the first parent group
whose member count is in range, so groups of exactly 3 or exactly 9 are
never selected. -/
theorem C7_segmented_invariants (page : Page) (l : List InputEl)
    (h : classify page = some (.segmented l)) :
    (4 ≤ l.length ∧ l.length ≤ 8) ∧
    (∀ e ∈ l, isVisibleInput e = true ∧ singleCharInput e = true ∧
      shortFormQuery e = true) ∧
    (∀ e ∈ l, ∀ f ∈ l, e.parentId = f.parentId) ∧
    l.Sublist page.inputs ∧
    (∃ k, (groupByParent (splitQualifying page)).find?
      (fun g => decide (4 ≤ g.2.length) && decide (g.2.length ≤ 8)) = some (k, l)) := by
  have hsplit : findSplitCodeInputs page = some l := by
    unfold classify at h
    cases h1 : tier1Scan page with
    | some e => rw [h1] at h; simp at h
    | none =>
      rw [h1] at h
      cases h2 : findSplitCodeInputs page with
      | some sp =>
        rw [h2] at h
        simp only [Option.some.injEq, CandidateField.segmented.injEq] at h
        rw [h]
      | none =>
        rw [h2] at h
        cases h3 : tier3Scan page <;> simp [h3] at h
  unfold findSplitCodeInputs at hsplit
  cases hf : (groupByParent (splitQualifying page)).find?
      (fun g => decide (4 ≤ g.2.length) && decide (g.2.length ≤ 8)) with
  | none => rw [hf] at hsplit; simp at hsplit
  | some g =>
    rw [hf] at hsplit
    simp only [Option.map_some', Option.some.injEq] at hsplit
    subst hsplit
    have hpred := List.find?_some hf
    have hmem := List.mem_of_find?_eq_some hf
    have hgrp := groupByParent_eq_filter hmem
    simp only [Bool.and_eq_true, decide_eq_true_eq] at hpred
    have hlq : ∀ e ∈ g.2, e ∈ splitQualifying page ∧ e.parentId = g.1 := by
      intro e he
      rw [hgrp] at he
      have h3 := List.mem_filter.mp he
      exact ⟨h3.1, by have := h3.2; simpa using this⟩
    refine ⟨hpred, ?_, ?_, ?_, ?_⟩
    · intro e he
      have hq := (hlq e he).1
      unfold splitQualifying at hq
      have h3 := List.mem_filter.mp hq
      have h4 := List.mem_filter.mp h3.1
      have h5 := List.mem_filter.mp h4.1
      exact ⟨h4.2, h3.2, h5.2⟩
    · intro e he f hfm
      rw [(hlq e he).2, (hlq f hfm).2]
    · have hsub1 : (g.2).Sublist (splitQualifying page) := by
        rw [hgrp]
        exact List.filter_sublist _
      have hsub2 : (splitQualifying page).Sublist page.inputs := by
        unfold splitQualifying
        exact ((List.filter_sublist _).trans (List.filter_sublist _)).trans
          (List.filter_sublist _)
      exact hsub1.trans hsub2
    · exact ⟨g.1, rfl⟩

/-- One box of a segmented code input: visible, type `text`, declared
`maxlength` 1, inside parent container 7. -/
def segBox : InputEl :=
  { typeAttr := some "text", maxLengthAttr := some 1,
    rectWidth := 30, rectHeight := 30, parentId := 7 }

/-- A page holding six single-character boxes in one container. -/
def pageSixBoxes : Page := ⟨List.replicate 6 segBox, ""⟩

/-- Witness for C7: the six-box page classifies as a segmented field with
the stated invariants. -/
theorem C7_witness :
    (4 ≤ (List.replicate 6 segBox).length ∧ (List.replicate 6 segBox).length ≤ 8) ∧
    (∀ e ∈ List.replicate 6 segBox, isVisibleInput e = true ∧
      singleCharInput e = true ∧ shortFormQuery e = true) ∧
    (∀ e ∈ List.replicate 6 segBox, ∀ f ∈ List.replicate 6 segBox,
      e.parentId = f.parentId) ∧
    (List.replicate 6 segBox).Sublist pageSixBoxes.inputs ∧
    (∃ k, (groupByParent (splitQualifying pageSixBoxes)).find?
      (fun g => decide (4 ≤ g.2.length) && decide (g.2.length ≤ 8)) =
        some (k, List.replicate 6 segBox)) :=
  C7_segmented_invariants pageSixBoxes (List.replicate 6 segBox) rfl

end AutofillCodes

namespace AutofillCodes

/-- A visible, empty, wide text input with neither a `maxlength` nor a
`size` attribute declared. -/
def elWideBare : InputEl :=
  { typeAttr := some "text", rectWidth := 400, rectHeight := 24 }

/-- A page whose visible text announces a verification code and whose
only input is `elWideBare`. -/
def pageWideBare : Page := ⟨[elWideBare], "Enter the verification code"⟩

/-- Counterexample for claim C8: `elWideBare` declares no max length, no
size attribute, and is 400 pixels wide — none of the claim's three
signals — yet Tier 3 returns it, because the reflected `input.maxLength`
is `-1` when undeclared and `-1 <= 8` holds. -/
theorem C8_counterexample :
    classify pageWideBare = some (.single elWideBare) ∧
    elWideBare.maxLengthAttr = none ∧
    elWideBare.sizeAttr = none ∧
    ¬(elWideBare.rectWidth < 300) :=
  ⟨rfl, rfl, rfl, by decide⟩

/-- Claim C8 (corrected): when the contextual gate passes, Tier 3 returns
the first visible, empty, short-form input satisfying reflected
`maxLength <= 8` (which is `-1`, hence satisfied, whenever no `maxlength`
attribute is declared), or reflected `size <= 8`, or rendered width below
300 pixels. -/
theorem C8_small_field_signals (page : Page) (el : InputEl)
    (h : tier3Scan page = some el) :
    pageHasCodeContext page = true ∧ isVisibleInput el = true ∧ el.value = "" ∧
    shortFormQuery el = true ∧
    (maxLengthProp el ≤ 8 ∨ sizeProp el ≤ 8 ∨ el.rectWidth < 300) := by
  unfold tier3Scan at h
  by_cases hc : pageHasCodeContext page
  · rw [if_pos hc] at h
    have hp := List.find?_some h
    have hm := List.mem_of_find?_eq_some h
    have hsf := (List.mem_filter.mp hm).2
    simp only [Bool.and_eq_true, Bool.or_eq_true, decide_eq_true_eq, beq_iff_eq,
      hasSmallWidth] at hp
    refine ⟨hc, hp.1.1, hp.1.2, hsf, ?_⟩
    rcases hp.2 with (h1 | h1) | h1
    · exact Or.inl h1
    · exact Or.inr (Or.inl h1)
    · exact Or.inr (Or.inr h1)
  · rw [if_neg hc] at h
    simp at h

/-- Witness for C8: the wide bare input is returned with only the
reflected-`maxLength` signal. -/
theorem C8_witness :
    pageHasCodeContext pageWideBare = true ∧ isVisibleInput elWideBare = true ∧
    elWideBare.value = "" ∧ shortFormQuery elWideBare = true ∧
    (maxLengthProp elWideBare ≤ 8 ∨ sizeProp elWideBare ≤ 8 ∨
      elWideBare.rectWidth < 300) :=
  C8_small_field_signals pageWideBare elWideBare rfl

/-- Counterexample for claim C9: running the classifier on a page with a
segmented group writes the module-level `splitInputs` variable — the
classification call does mutate module state, contrary to the claim. -/
theorem C9_counterexample :
    (findCodeFieldS pageSixBoxes ⟨none⟩).2 ≠ (⟨none⟩ : CState) := by
  intro h
  have h2 : (findCodeFieldS pageSixBoxes ⟨none⟩).2 =
      ⟨some (List.replicate 6 segBox)⟩ := rfl
  rw [h2] at h
  simp at h

/-- Claim C9 (corrected): the extractor is a pure function of its text
snapshot, and the classifier's returned field depends only on the page
snapshot, never on the prior module state; but the classifier is not
state-free — its Tier-2 branch writes the module-level `splitInputs`
variable, and that is the only write (otherwise the state is returned
unchanged). -/
theorem C9_state_effects (page : Page) (s1 s2 : CState) :
    (findCodeFieldS page s1).1 = (findCodeFieldS page s2).1 ∧
    ((findCodeFieldS page s1).2 = s1 ∨
      (findCodeFieldS page s1).2 = ⟨findSplitCodeInputs page⟩) := by
  unfold findCodeFieldS
  cases tier1Scan page with
  | some e => exact ⟨rfl, Or.inl rfl⟩
  | none =>
    cases hs : findSplitCodeInputs page with
    | some splits => exact ⟨rfl, Or.inr rfl⟩
    | none => exact ⟨rfl, Or.inl rfl⟩

end AutofillCodes
